import Mathlib

/-!
Verification of the ReelTalkBot dispatch-and-governance core against its
natural-language specification.

The Go source is shallowly embedded: instants and durations are modelled as
natural numbers (one unit per second; the Go code's time.Since(t) becomes
now - t with truncated subtraction, which agrees with the Go comparison
semantics for all timestamps not in the future), strings are Lean strings
or lists of characters (Go indexes bytes; for the ASCII inputs considered
here byte indexing and character indexing coincide), and each
mutex-protected method of the source becomes an atomic state transformer.
-/

namespace ReelTalk

/-! ## UsageCache (internal/usage/usage_cache.go)

The Go struct carries a per-user list of timestamps, a limit (default 10)
and a window duration (default 10 minutes).  All three methods lock the
cache mutex for their whole body, so each is one atomic step.  We model the
timestamp list of a single user; `limit` and `duration` are passed
explicitly and instantiated with the defaults in the theorems. -/

def defaultLimit : Nat := 10

def defaultWindow : Nat := 600

/-- Translation of the body of filterRecentMessages: keep the timestamps t
with time.Since(t) <= duration, preserving order. -/
def filterRecentMessages (now duration : Nat) (times : List Nat) : List Nat :=
  times.filter (fun t => decide (now - t ≤ duration))

/-- Translation of CanUserChat: prune, then compare the count of valid
timestamps against the limit (strictly less than). -/
def canUserChat (now limit duration : Nat) (times : List Nat) : Bool :=
  decide ((filterRecentMessages now duration times).length < limit)

/-- Translation of AddUsage: append the current instant. -/
def addUsage (now : Nat) (times : List Nat) : List Nat :=
  times ++ [now]

/-- Translation of TimeUntilLimitReset: if under the limit return 0,
otherwise return duration - (now - oldest valid timestamp).  The source
indexes validTimes[0]; that index is reachable only when the valid count is
at least the (positive) limit, so the empty case below is dead code for the
default configuration. -/
def timeUntilLimitReset (now limit duration : Nat) (times : List Nat) : Nat :=
  let validTimes := filterRecentMessages now duration times
  if validTimes.length < limit then 0
  else
    match validTimes with
    | [] => 0
    | oldest :: _ => duration - (now - oldest)

/-- Number of recorded timestamps lying within the trailing window at the
read instant, the quantity the spec's iff-characterisation speaks about. -/
def inWindowCount (now duration : Nat) (times : List Nat) : Nat :=
  times.countP (fun t => decide (now - t ≤ duration))

theorem filterRecentMessages_length (now duration : Nat) (times : List Nat) :
    (filterRecentMessages now duration times).length = inWindowCount now duration times := by
  simp [filterRecentMessages, inWindowCount, List.countP_eq_length_filter]

theorem canUserChat_iff (now limit duration : Nat) (times : List Nat) :
    canUserChat now limit duration times = true ↔
      inWindowCount now duration times < limit := by
  rw [canUserChat, decide_eq_true_eq, filterRecentMessages_length]

theorem timeUntilLimitReset_le (now limit duration : Nat) (times : List Nat) :
    timeUntilLimitReset now limit duration times ≤ duration := by
  rw [timeUntilLimitReset]
  cases h : filterRecentMessages now duration times with
  | nil => simp
  | cons oldest rest =>
    split
    · exact Nat.zero_le duration
    · exact Nat.sub_le duration (now - oldest)

/-- C2 (amended): with the default limit 10 and window 10 minutes,
CanUserChat returns true iff the in-window timestamp count is strictly below
the limit (stated for arbitrary read instant now2 and timestamps times2);
and for a metered sender with exactly 10 in-window timestamps whose oldest
valid timestamp t0 is strictly younger than a full window, the next
CanUserChat returns false, and TimeUntilLimitReset is strictly positive and
at most the window.  (The strict positivity genuinely needs now - t0 < window:
at exactly a full window it returns 0, see the counterexample.) -/
theorem c2_usage_limiter_after_limit (now t0 now2 : Nat)
    (times times2 : List Nat)
    (hcount : inWindowCount now defaultWindow times = defaultLimit)
    (hhead : (filterRecentMessages now defaultWindow times).head? = some t0)
    (hfresh : now - t0 < defaultWindow) :
    (canUserChat now2 defaultLimit defaultWindow times2 = true ↔
        inWindowCount now2 defaultWindow times2 < defaultLimit) ∧
    canUserChat now defaultLimit defaultWindow times = false ∧
    0 < timeUntilLimitReset now defaultLimit defaultWindow times ∧
    timeUntilLimitReset now defaultLimit defaultWindow times ≤ defaultWindow := by
  refine ⟨canUserChat_iff now2 defaultLimit defaultWindow times2, ?_, ?_,
    timeUntilLimitReset_le now defaultLimit defaultWindow times⟩
  · have hlen := filterRecentMessages_length now defaultWindow times
    rw [canUserChat, decide_eq_false_iff_not, hlen, hcount]
    omega
  · have hlen := filterRecentMessages_length now defaultWindow times
    rw [timeUntilLimitReset]
    cases h : filterRecentMessages now defaultWindow times with
    | nil => rw [h] at hhead; simp at hhead
    | cons oldest rest =>
      rw [h] at hhead hlen
      simp only [List.head?_cons, Option.some.injEq] at hhead
      subst hhead
      rw [hcount] at hlen
      simp only [hlen, defaultLimit, lt_irrefl, if_false]
      omega

/-- Witness for the amended C2 theorem: ten messages at instant 0 read at
instant 300 (five minutes in). -/
theorem c2_usage_limiter_after_limit_witness :
    ((canUserChat 123 defaultLimit defaultWindow [0, 400] = true ↔
        inWindowCount 123 defaultWindow [0, 400] < defaultLimit) ∧
      canUserChat 300 defaultLimit defaultWindow (List.replicate 10 0) = false ∧
      0 < timeUntilLimitReset 300 defaultLimit defaultWindow (List.replicate 10 0) ∧
      timeUntilLimitReset 300 defaultLimit defaultWindow (List.replicate 10 0) ≤ defaultWindow) :=
  c2_usage_limiter_after_limit 300 0 123 (List.replicate 10 0) [0, 400]
    (by decide) (by decide) (by decide)

/-- C2 counterexample to the claim as stated: ten messages recorded at
instant 0 and read at instant 600 are all still within the ten-minute
window (time.Since uses a non-strict comparison), so the sender is
rate-limited, yet TimeUntilLimitReset returns 0, which is not strictly
positive as the claim requires. -/
theorem c2_strict_positivity_counterexample :
    inWindowCount 600 defaultWindow (List.replicate 10 0) = defaultLimit ∧
    canUserChat 600 defaultLimit defaultWindow (List.replicate 10 0) = false ∧
    timeUntilLimitReset 600 defaultLimit defaultWindow (List.replicate 10 0) = 0 ∧
    ¬ (0 < timeUntilLimitReset 600 defaultLimit defaultWindow (List.replicate 10 0)) := by
  decide

/-- C8 (amended): TimeUntilLimitReset is monotonically non-increasing
between two read instants t1 ≤ t2 with no intervening AddUsage provided the
pruning outcome is unchanged (no timestamp expires between the two reads);
and it returns 0 whenever the in-window count is below the limit.  Without
the no-expiry proviso the value can increase, see the counterexample. -/
theorem c8_time_until_reset_monotone (t1 t2 : Nat) (times : List Nat)
    (h12 : t1 ≤ t2)
    (hsame : filterRecentMessages t2 defaultWindow times =
      filterRecentMessages t1 defaultWindow times) :
    timeUntilLimitReset t2 defaultLimit defaultWindow times ≤
      timeUntilLimitReset t1 defaultLimit defaultWindow times ∧
    (inWindowCount t2 defaultWindow times < defaultLimit →
      timeUntilLimitReset t2 defaultLimit defaultWindow times = 0) := by
  constructor
  · rw [timeUntilLimitReset, timeUntilLimitReset, hsame]
    cases h : filterRecentMessages t1 defaultWindow times with
    | nil => split <;> simp
    | cons oldest rest =>
      split
      · exact Nat.zero_le _
      · have hmem : oldest ∈ filterRecentMessages t1 defaultWindow times := by
          rw [h]; exact List.mem_cons_self oldest rest
        have hin : t1 - oldest ≤ defaultWindow := by
          have := List.of_mem_filter hmem
          simpa using this
        show defaultWindow - (t2 - oldest) ≤ defaultWindow - (t1 - oldest)
        omega
  · intro hlt
    rw [timeUntilLimitReset]
    have hlen := filterRecentMessages_length t2 defaultWindow times
    simp only [hlen, hlt, if_true]

/-- Witness for the amended C8 theorem: ten messages at instant 0, read at
instants 590 and then 595; no timestamp expires in between and the reset
countdown falls from 10 to 5. -/
theorem c8_time_until_reset_monotone_witness :
    (timeUntilLimitReset 595 defaultLimit defaultWindow (List.replicate 10 0) ≤
        timeUntilLimitReset 590 defaultLimit defaultWindow (List.replicate 10 0) ∧
      (inWindowCount 595 defaultWindow (List.replicate 10 0) < defaultLimit →
        timeUntilLimitReset 595 defaultLimit defaultWindow (List.replicate 10 0) = 0)) :=
  c8_time_until_reset_monotone 590 595 (List.replicate 10 0) (by decide) (by decide)

/-- C8 counterexample to the claim as stated: ten messages at instant 0 and
ten more at instant 500, with no further messages recorded.  At instant 590
the reset countdown is 10; at instant 610 the first ten timestamps have
expired, the remaining ten still meet the limit, and the countdown jumps up
to 490 — the value is not monotonically non-increasing. -/
theorem c8_monotonicity_counterexample :
    timeUntilLimitReset 590 defaultLimit defaultWindow
        (List.replicate 10 0 ++ List.replicate 10 500) = 10 ∧
    timeUntilLimitReset 610 defaultLimit defaultWindow
        (List.replicate 10 0 ++ List.replicate 10 500) = 490 ∧
    ¬ (timeUntilLimitReset 610 defaultLimit defaultWindow
          (List.replicate 10 0 ++ List.replicate 10 500) ≤
        timeUntilLimitReset 590 defaultLimit defaultWindow
          (List.replicate 10 0 ++ List.replicate 10 500)) := by
  decide

/-! ## Interleaving model of the limiter race (ProcessMessage lines 158-188)

ProcessMessage first calls CanUserChat and then, in a separate call,
AddUsage.  Each call locks the UsageCache mutex for its own body only, so
each call is one atomic step, but nothing serialises the pair.  A turn is
modelled as a two-phase program: the check step (which also stores the
pruned list, as CanUserChat does) and the record step (AddUsage, executed
only when the check passed, matching the guard in ProcessMessage).  Two
concurrent turns of the same sender are driven by an explicit schedule. -/

inductive TurnPhase
  | ready
  | checked (ok : Bool)
  | finished (ok : Bool)
deriving DecidableEq

structure RaceState where
  cache : List Nat
  phaseA : TurnPhase
  phaseB : TurnPhase
deriving DecidableEq

/-- One atomic, mutex-protected step of a single turn against the shared
per-sender timestamp list. -/
def turnStep (now limit duration : Nat) (cache : List Nat) (ph : TurnPhase) :
    List Nat × TurnPhase :=
  match ph with
  | .ready =>
      (filterRecentMessages now duration cache,
        .checked (canUserChat now limit duration cache))
  | .checked ok => (if ok then addUsage now cache else cache, .finished ok)
  | .finished ok => (cache, .finished ok)

inductive Who
  | A
  | B
deriving DecidableEq

/-- Run two concurrent turns under an explicit interleaving schedule. -/
def runSched (now limit duration : Nat) : List Who → RaceState → RaceState
  | [], st => st
  | w :: ws, st =>
    match w with
    | .A =>
        let r := turnStep now limit duration st.cache st.phaseA
        runSched now limit duration ws ⟨r.1, r.2, st.phaseB⟩
    | .B =>
        let r := turnStep now limit duration st.cache st.phaseB
        runSched now limit duration ws ⟨r.1, st.phaseA, r.2⟩

theorem inWindowCount_filterRecent (now duration : Nat) (l : List Nat) :
    inWindowCount now duration (filterRecentMessages now duration l) =
      inWindowCount now duration l := by
  simp [inWindowCount, filterRecentMessages, List.countP_filter]

theorem inWindowCount_addUsage (now duration : Nat) (l : List Nat) :
    inWindowCount now duration (addUsage now l) =
      inWindowCount now duration l + 1 := by
  simp [inWindowCount, addUsage, List.countP_append, Nat.sub_self]

/-- Both steps of one turn run to completion with no interference. -/
def seqTurn (now limit duration : Nat) (cache : List Nat) : List Nat :=
  let r1 := turnStep now limit duration cache TurnPhase.ready
  (turnStep now limit duration r1.1 r1.2).1

theorem seqTurn_le (now limit duration : Nat) (c : List Nat)
    (h : inWindowCount now duration c ≤ limit) :
    inWindowCount now duration (seqTurn now limit duration c) ≤ limit := by
  rw [seqTurn]
  cases hok : canUserChat now limit duration c with
  | false =>
    simp only [turnStep, hok, if_false, Bool.false_eq_true]
    rw [inWindowCount_filterRecent]
    exact h
  | true =>
    have hlt : inWindowCount now duration c < limit :=
      (canUserChat_iff now limit duration c).mp hok
    simp only [turnStep, hok, if_true]
    rw [inWindowCount_addUsage, inWindowCount_filterRecent]
    omega

/-- C9 (amended): each limiter call is individually atomic under the cache
mutex, but the lock is released between CanUserChat and AddUsage.  When the
two turns do not interleave (schedule A, A, B, B: each turn completes its
check-then-record before the other starts), the in-window count stays
within the limit; the counterexample shows the interleaved schedule
A, B, A, B breaking the bound, so the claimed single critical section does
not exist in the code. -/
theorem c9_sequential_turns_respect_limit (now : Nat) (c0 : List Nat)
    (hstart : inWindowCount now defaultWindow c0 ≤ defaultLimit) :
    inWindowCount now defaultWindow
      (runSched now defaultLimit defaultWindow [Who.A, Who.A, Who.B, Who.B]
        ⟨c0, TurnPhase.ready, TurnPhase.ready⟩).cache ≤ defaultLimit := by
  have hrw : (runSched now defaultLimit defaultWindow [Who.A, Who.A, Who.B, Who.B]
      ⟨c0, TurnPhase.ready, TurnPhase.ready⟩).cache =
      seqTurn now defaultLimit defaultWindow
        (seqTurn now defaultLimit defaultWindow c0) := rfl
  rw [hrw]
  exact seqTurn_le now defaultLimit defaultWindow _
    (seqTurn_le now defaultLimit defaultWindow c0 hstart)

/-- Witness for the amended C9 theorem: nine messages already in the
window; the two sequential turns push the count to exactly the limit and
the second turn is refused. -/
theorem c9_sequential_turns_respect_limit_witness :
    inWindowCount 0 defaultWindow
      (runSched 0 defaultLimit defaultWindow [Who.A, Who.A, Who.B, Who.B]
        ⟨List.replicate 9 0, TurnPhase.ready, TurnPhase.ready⟩).cache ≤ defaultLimit :=
  c9_sequential_turns_respect_limit 0 (List.replicate 9 0) (by decide)

/-- C9 counterexample to the claim as stated: with nine timestamps in the
window (count limit - 1), the interleaving check-A, check-B, record-A,
record-B lets both turns observe "under limit" and both record, leaving
eleven in-window timestamps — the limit of ten is exceeded, so
CanUserChat and AddUsage are provably not covered by one critical
section. -/
theorem c9_interleaving_counterexample :
    (runSched 0 defaultLimit defaultWindow [Who.A, Who.B, Who.A, Who.B]
        ⟨List.replicate 9 0, TurnPhase.ready, TurnPhase.ready⟩).phaseA =
      TurnPhase.finished true ∧
    (runSched 0 defaultLimit defaultWindow [Who.A, Who.B, Who.A, Who.B]
        ⟨List.replicate 9 0, TurnPhase.ready, TurnPhase.ready⟩).phaseB =
      TurnPhase.finished true ∧
    inWindowCount 0 defaultWindow
      (runSched 0 defaultLimit defaultWindow [Who.A, Who.B, Who.A, Who.B]
        ⟨List.replicate 9 0, TurnPhase.ready, TurnPhase.ready⟩).cache = 11 ∧
    defaultLimit < 11 := by
  decide

/-! ## ConversationCache (internal/conversation/conversation_cache.go)

The Go cache is a map from string keys to entries carrying the serialized
history and a lastSeen instant, with expiry fixed at 30 minutes.  We model
the map as an association list in which Set replaces any previous binding
of the key.  Set, Get and one sweep of the cleanup goroutine each hold the
cache mutex, so each is one atomic step; between a Set and a later Get any
number of cleanup sweeps may run, which the theorems quantify over. -/

structure ConversationEntry where
  data : String
  lastSeen : Nat
deriving DecidableEq

def convExpiry : Nat := 1800

abbrev ConversationCache := List (String × ConversationEntry)

def convLookup (key : String) (m : ConversationCache) : Option ConversationEntry :=
  match m.find? (fun kv => kv.1 == key) with
  | some kv => some kv.2
  | none => none

/-- Translation of Set: overwrite the binding of the key and refresh
lastSeen to now. -/
def convSet (now : Nat) (key value : String) (m : ConversationCache) :
    ConversationCache :=
  (key, ⟨value, now⟩) :: m.filter (fun kv => !(kv.1 == key))

/-- Translation of Get: absent keys and entries with
time.Since(lastSeen) > expiry give found = false with an empty value. -/
def convGet (now : Nat) (key : String) (m : ConversationCache) : String × Bool :=
  match convLookup key m with
  | none => ("", false)
  | some entry =>
    if convExpiry < now - entry.lastSeen then ("", false)
    else (entry.data, true)

/-- Translation of one tick of cleanupExpiredContexts: physically delete
every entry whose lastSeen is more than expiry old at the tick instant. -/
def cleanupExpiredContexts (now : Nat) (m : ConversationCache) :
    ConversationCache :=
  m.filter (fun kv => !(decide (convExpiry < now - kv.2.lastSeen)))

/-- Any number of cleanup sweeps at the given tick instants. -/
def runCleanups (ticks : List Nat) (m : ConversationCache) : ConversationCache :=
  ticks.foldl (fun acc tc => cleanupExpiredContexts tc acc) m

/-- Every binding of the key in the cache carries exactly this entry. -/
def keyBound (key : String) (e : ConversationEntry) (m : ConversationCache) : Prop :=
  ∀ kv ∈ m, kv.1 = key → kv.2 = e

theorem keyBound_convSet (now : Nat) (key value : String) (m : ConversationCache) :
    keyBound key ⟨value, now⟩ (convSet now key value m) := by
  intro kv hmem hkey
  rcases List.mem_cons.mp hmem with h | h
  · rw [h]
  · have := (List.mem_filter.mp h).2
    simp [hkey] at this

theorem keyBound_cleanup (tc : Nat) (key : String) (e : ConversationEntry)
    (m : ConversationCache) (hb : keyBound key e m) :
    keyBound key e (cleanupExpiredContexts tc m) := by
  intro kv hmem hkey
  exact hb kv (List.mem_filter.mp hmem).1 hkey

theorem keyBound_runCleanups (ticks : List Nat) (key : String)
    (e : ConversationEntry) (m : ConversationCache) (hb : keyBound key e m) :
    keyBound key e (runCleanups ticks m) := by
  induction ticks generalizing m with
  | nil => exact hb
  | cons tc rest ih => exact ih _ (keyBound_cleanup tc key e m hb)

theorem mem_runCleanups (ticks : List Nat) (key : String) (e : ConversationEntry)
    (m : ConversationCache) (hmem : (key, e) ∈ m)
    (hlive : ∀ tc ∈ ticks, ¬ convExpiry < tc - e.lastSeen) :
    (key, e) ∈ runCleanups ticks m := by
  induction ticks generalizing m with
  | nil => exact hmem
  | cons tc rest ih =>
    refine ih _ (List.mem_filter.mpr ⟨hmem, ?_⟩) (fun t ht => hlive t (List.mem_cons_of_mem tc ht))
    simpa using hlive tc (List.mem_cons_self tc rest)

theorem convLookup_of_mem (key : String) (e : ConversationEntry)
    (m : ConversationCache) (hmem : (key, e) ∈ m) (hb : keyBound key e m) :
    convLookup key m = some e := by
  rw [convLookup]
  cases hf : m.find? (fun kv => kv.1 == key) with
  | none =>
    rw [List.find?_eq_none] at hf
    exact absurd (by simp : ((key, e).1 == key) = true) (hf (key, e) hmem)
  | some kv =>
    have hkey : kv.1 = key := by simpa using List.find?_some hf
    show some kv.2 = some e
    rw [hb kv (List.mem_of_find?_eq_some hf) hkey]

theorem convLookup_keyBound (key : String) (e : ConversationEntry)
    (m : ConversationCache) (hb : keyBound key e m) :
    convLookup key m = none ∨ convLookup key m = some e := by
  rw [convLookup]
  cases hf : m.find? (fun kv => kv.1 == key) with
  | none => exact Or.inl rfl
  | some kv =>
    have hkey : kv.1 = key := by simpa using List.find?_some hf
    refine Or.inr ?_
    show some kv.2 = some e
    rw [hb kv (List.mem_of_find?_eq_some hf) hkey]

theorem convLookup_eq_none_of_noKey (key : String) (m : ConversationCache)
    (h : ∀ kv ∈ m, kv.1 ≠ key) : convLookup key m = none := by
  rw [convLookup]
  cases hf : m.find? (fun kv => kv.1 == key) with
  | none => rfl
  | some kv =>
    have hkey : kv.1 = key := by simpa using List.find?_some hf
    exact absurd hkey (h kv (List.mem_of_find?_eq_some hf))

theorem noKey_runCleanups (ticks : List Nat) (key : String)
    (m : ConversationCache) (h : ∀ kv ∈ m, kv.1 ≠ key) :
    ∀ kv ∈ runCleanups ticks m, kv.1 ≠ key := by
  induction ticks generalizing m with
  | nil => exact h
  | cons tc rest ih =>
    exact ih _ (fun kv hmem => h kv (List.mem_filter.mp hmem).1)

/-- C5: a value stored by Set at instant tSet1 is still returned with
found = true by a Get at any instant tGet1 less than the 30-minute TTL
later, and a Get more than the TTL after a Set at tSet2 returns found =
false with an empty value, exactly as if the key had never been stored —
in both cases regardless of which cleanup sweeps ran in between. -/
theorem c5_conversation_store_ttl (key value : String) (m : ConversationCache)
    (tSet1 tGet1 : Nat) (ticks1 : List Nat)
    (hticks1 : ∀ tc ∈ ticks1, tc ≤ tGet1)
    (hfresh : tGet1 - tSet1 < convExpiry)
    (tSet2 tGet2 : Nat) (ticks2 : List Nat)
    (_hticks2 : ∀ tc ∈ ticks2, tc ≤ tGet2)
    (hexp : convExpiry < tGet2 - tSet2) :
    convGet tGet1 key (runCleanups ticks1 (convSet tSet1 key value m)) =
      (value, true) ∧
    convGet tGet2 key (runCleanups ticks2 (convSet tSet2 key value m)) =
      ("", false) ∧
    convGet tGet2 key (runCleanups ticks2 (convSet tSet2 key value m)) =
      convGet tGet2 key (runCleanups ticks2 (m.filter (fun kv => !(kv.1 == key)))) := by
  have habs : convGet tGet2 key
      (runCleanups ticks2 (m.filter (fun kv => !(kv.1 == key)))) = ("", false) := by
    have hno : ∀ kv ∈ m.filter (fun kv => !(kv.1 == key)), kv.1 ≠ key := by
      intro kv hmem
      have := (List.mem_filter.mp hmem).2
      simpa using this
    rw [convGet, convLookup_eq_none_of_noKey key _ (noKey_runCleanups ticks2 key _ hno)]
  have hexpget : convGet tGet2 key
      (runCleanups ticks2 (convSet tSet2 key value m)) = ("", false) := by
    have hb := keyBound_runCleanups ticks2 key ⟨value, tSet2⟩ _
      (keyBound_convSet tSet2 key value m)
    rw [convGet]
    rcases convLookup_keyBound key ⟨value, tSet2⟩ _ hb with h | h
    · rw [h]
    · rw [h]
      simp only [hexp, if_true]
  refine ⟨?_, hexpget, by rw [hexpget, habs]⟩
  have hmem : (key, (⟨value, tSet1⟩ : ConversationEntry)) ∈ convSet tSet1 key value m :=
    List.mem_cons_self _ _
  have hlive : ∀ tc ∈ ticks1,
      ¬ convExpiry < tc - (⟨value, tSet1⟩ : ConversationEntry).lastSeen := by
    intro tc htc
    have := hticks1 tc htc
    simp only
    omega
  have hb := keyBound_runCleanups ticks1 key ⟨value, tSet1⟩ _
    (keyBound_convSet tSet1 key value m)
  rw [convGet, convLookup_of_mem key _ _
    (mem_runCleanups ticks1 key _ _ hmem hlive) hb]
  have : ¬ convExpiry < tGet1 - tSet1 := by omega
  simp only [this, if_false]

/-- Witness for C5: a value stored at instant 0 is retrievable at instant
1000 (with a cleanup sweep at instant 500 in between) and gone at instant
2000 after a store at instant 0 (with a sweep at instant 1900). -/
theorem c5_conversation_store_ttl_witness :
    convGet 1000 "user_7" (runCleanups [500] (convSet 0 "user_7" "history" [])) =
      ("history", true) ∧
    convGet 2000 "user_7" (runCleanups [1900] (convSet 0 "user_7" "history" [])) =
      ("", false) ∧
    convGet 2000 "user_7" (runCleanups [1900] (convSet 0 "user_7" "history" [])) =
      convGet 2000 "user_7"
        (runCleanups [1900] (List.filter (fun kv => !(kv.1 == "user_7")) [])) :=
  c5_conversation_store_ttl "user_7" "history" [] 0 1000 [500]
    (by intro tc htc; simp at htc; omega) (by decide)
    0 2000 [1900] (by intro tc htc; simp at htc; omega) (by decide)

/-! ## MessageClassifier (internal/telegram/telegram_handler.go)

HandleTelegramMessage validates the event, routes commands, scans the
entity list for a mention of the bot, and either ignores the message or
hands the (possibly mention-stripped) question to ProcessMessage.  We model
its decision as a pure function into an Intent value.  Message text is a
list of characters; Go indexes bytes, which coincides for ASCII text.
Char.toLower agrees with Go strings.ToLower on ASCII. -/

structure MessageEntity where
  offset : Nat
  length : Nat
  entityType : String
deriving DecidableEq

structure ReplyInfo where
  fromIsBot : Bool
deriving DecidableEq

structure TelegramMessage where
  chatId : Int
  chatType : String
  text : List Char
  entities : List MessageEntity
  replyTo : Option ReplyInfo
deriving DecidableEq

inductive Intent
  | ignore
  | command (text : List Char)
  | directQuestion (question : List Char)
deriving DecidableEq

/-- Translation of the Go slice message.Text[offset : offset+length]. -/
def substringOf (text : List Char) (off len : Nat) : List Char :=
  (text.drop off).take len

/-- Translation of isTaggedMention: lower-case the mention and compare it
with "@" + lower-cased bot username. -/
def isTaggedMention (mention botUsername : List Char) : Bool :=
  mention.map Char.toLower == '@' :: botUsername.map Char.toLower

/-- Translation of strings.Replace(text, pat, replacement-empty, count-one):
drop the first occurrence of pat from text. -/
def removeFirstSub (pat : List Char) : List Char → List Char
  | [] => []
  | c :: rest =>
    if pat.isPrefixOf (c :: rest) then (c :: rest).drop pat.length
    else c :: removeFirstSub pat rest

/-- Translation of strings.TrimSpace, over characters. -/
def trimSpace (l : List Char) : List Char :=
  ((l.dropWhile Char.isWhitespace).reverse.dropWhile Char.isWhitespace).reverse

/-- Translation of removeMention: strip the first occurrence of the mention
and trim surrounding whitespace. -/
def removeMention (text mention : List Char) : List Char :=
  trimSpace (removeFirstSub mention text)

/-- Conditions under which the entity loop accepts an entity as a bot tag:
kind "mention", span inside the text, and substring equal (case
insensitively) to "@" + bot username. -/
def taggedEntity (botUsername text : List Char) (e : MessageEntity) : Bool :=
  e.entityType == "mention" &&
    decide (e.offset + e.length ≤ text.length) &&
    isTaggedMention (substringOf text e.offset e.length) botUsername

/-- Translation of the entity loop: walk the entities in order, skip
non-mention entities and out-of-range spans, stop at the first span that
tags the bot and return its substring. -/
def scanMentions (botUsername text : List Char) :
    List MessageEntity → Option (List Char)
  | [] => none
  | e :: rest =>
    if e.entityType == "mention" then
      if text.length < e.offset + e.length then scanMentions botUsername text rest
      else if isTaggedMention (substringOf text e.offset e.length) botUsername then
        some (substringOf text e.offset e.length)
      else scanMentions botUsername text rest
    else scanMentions botUsername text rest

/-- Truth of message.ReplyToMessage different from nil combined with
message.ReplyToMessage.From.IsBot. -/
def replyFromBot (msg : TelegramMessage) : Bool :=
  match msg.replyTo with
  | some r => r.fromIsBot
  | none => false

/-- Translation of the classification performed by HandleTelegramMessage:
invalid structure and unanswerable group messages are ignored, commands are
routed by their text, everything else becomes a direct question, with the
bot mention stripped when the message was tagged. -/
def handleTelegramMessage (botUsername : List Char) (msg : TelegramMessage) :
    Intent :=
  if msg.chatId = 0 ∨ msg.text = [] then Intent.ignore
  else if ['/'].isPrefixOf msg.text then Intent.command msg.text
  else
    match scanMentions botUsername msg.text msg.entities with
    | some mention => Intent.directQuestion (removeMention msg.text mention)
    | none =>
      if replyFromBot msg = false ∧ msg.chatType ≠ "private" then Intent.ignore
      else Intent.directQuestion msg.text

theorem scanMentions_eq_none (bot text : List Char) (es : List MessageEntity)
    (h : ∀ e ∈ es, taggedEntity bot text e = false) :
    scanMentions bot text es = none := by
  induction es with
  | nil => rfl
  | cons e rest ih =>
    have he := h e (List.mem_cons_self e rest)
    have hrest := ih (fun x hx => h x (List.mem_cons_of_mem e hx))
    rw [scanMentions]
    by_cases h1 : (e.entityType == "mention") = true
    · by_cases h2 : text.length < e.offset + e.length
      · simp [h1, h2, hrest]
      · have h3 : isTaggedMention (substringOf text e.offset e.length) bot = false := by
          simp only [taggedEntity, h1, Bool.true_and, Bool.and_eq_false_iff] at he
          rcases he with he | he
          · exact absurd (by omega : e.offset + e.length ≤ text.length)
              (by simpa using he)
          · exact he
        simp [h1, h2, h3, hrest]
    · simp [h1, hrest]

theorem scanMentions_first (bot text : List Char) (pre post : List MessageEntity)
    (e : MessageEntity)
    (hpre : ∀ x ∈ pre, taggedEntity bot text x = false)
    (he : taggedEntity bot text e = true) :
    scanMentions bot text (pre ++ e :: post) =
      some (substringOf text e.offset e.length) := by
  induction pre with
  | nil =>
    simp only [List.nil_append]
    rw [scanMentions]
    simp only [taggedEntity, Bool.and_eq_true, beq_iff_eq, decide_eq_true_eq] at he
    obtain ⟨⟨h1, h2⟩, h3⟩ := he
    simp [h1, h3, Nat.not_lt.mpr h2]
  | cons x pre2 ih =>
    have hx := hpre x (List.mem_cons_self x pre2)
    have hrest := ih (fun y hy => hpre y (List.mem_cons_of_mem x hy))
    simp only [List.cons_append]
    rw [scanMentions]
    by_cases h1 : (x.entityType == "mention") = true
    · by_cases h2 : text.length < x.offset + x.length
      · simp [h1, h2, hrest]
      · have h3 : isTaggedMention (substringOf text x.offset x.length) bot = false := by
          simp only [taggedEntity, h1, Bool.true_and, Bool.and_eq_false_iff] at hx
          rcases hx with hx | hx
          · exact absurd (by omega : x.offset + x.length ≤ text.length)
              (by simpa using hx)
          · exact hx
        simp [h1, h2, h3, hrest]
    · simp [h1, hrest]

theorem scanMentions_skip_oob (bot text : List Char)
    (pre post : List MessageEntity) (e : MessageEntity)
    (he : text.length < e.offset + e.length) :
    scanMentions bot text (pre ++ e :: post) = scanMentions bot text (pre ++ post) := by
  induction pre with
  | nil =>
    simp only [List.nil_append]
    rw [scanMentions]
    by_cases h1 : (e.entityType == "mention") = true
    · simp [h1, he]
    · simp [h1]
  | cons x pre2 ih =>
    simp only [List.cons_append]
    rw [scanMentions, scanMentions]
    by_cases h1 : (x.entityType == "mention") = true
    · by_cases h2 : text.length < x.offset + x.length
      · simp [h1, h2, ih]
      · by_cases h3 : isTaggedMention (substringOf text x.offset x.length) bot = true
        · simp [h1, h2, h3]
        · simp [h1, h2, h3, ih]
    · simp [h1, ih]

/-- C6: for well-formed non-command events (chat id present, text present):
a private-chat message is never classified Ignore; a non-private message
with no in-range tagging mention span and no reply-to-bot is classified
Ignore; a message whose first accepting mention span is e is classified
DirectQuestion with the first occurrence of the mention substring removed
and surrounding whitespace trimmed; and an out-of-range mention span is
skipped exactly as if it were absent. -/
theorem c6_message_classifier (bot : List Char)
    (m1 : TelegramMessage)
    (h1a : m1.chatId ≠ 0) (h1b : m1.text ≠ [])
    (h1c : (['/'].isPrefixOf m1.text) = false)
    (h1d : m1.chatType = "private")
    (m2 : TelegramMessage)
    (h2a : m2.chatId ≠ 0) (h2b : m2.text ≠ [])
    (h2c : (['/'].isPrefixOf m2.text) = false)
    (h2d : m2.chatType ≠ "private")
    (h2e : ∀ e ∈ m2.entities, taggedEntity bot m2.text e = false)
    (h2f : replyFromBot m2 = false)
    (m3 : TelegramMessage) (pre post : List MessageEntity) (e : MessageEntity)
    (h3a : m3.chatId ≠ 0) (h3b : m3.text ≠ [])
    (h3c : (['/'].isPrefixOf m3.text) = false)
    (h3d : m3.entities = pre ++ e :: post)
    (h3e : ∀ x ∈ pre, taggedEntity bot m3.text x = false)
    (h3f : taggedEntity bot m3.text e = true)
    (cid4 : Int) (ct4 : String) (txt4 : List Char) (rt4 : Option ReplyInfo)
    (pre4 post4 : List MessageEntity) (e4 : MessageEntity)
    (h4 : txt4.length < e4.offset + e4.length) :
    handleTelegramMessage bot m1 ≠ Intent.ignore ∧
    handleTelegramMessage bot m2 = Intent.ignore ∧
    handleTelegramMessage bot m3 =
      Intent.directQuestion
        (removeMention m3.text (substringOf m3.text e.offset e.length)) ∧
    handleTelegramMessage bot ⟨cid4, ct4, txt4, pre4 ++ e4 :: post4, rt4⟩ =
      handleTelegramMessage bot ⟨cid4, ct4, txt4, pre4 ++ post4, rt4⟩ := by
  refine ⟨?_, ?_, ?_, ?_⟩
  · rw [handleTelegramMessage, if_neg (by simp [h1a, h1b]), if_neg (by simp [h1c])]
    cases hscan : scanMentions bot m1.text m1.entities with
    | some mention => simp
    | none =>
      rw [if_neg (by simp [h1d])]
      simp
  · rw [handleTelegramMessage, if_neg (by simp [h2a, h2b]), if_neg (by simp [h2c]),
      scanMentions_eq_none bot m2.text m2.entities h2e]
    rw [if_pos ⟨h2f, h2d⟩]
  · rw [handleTelegramMessage, if_neg (by simp [h3a, h3b]), if_neg (by simp [h3c]),
      h3d, scanMentions_first bot m3.text pre post e h3e h3f]
  · rw [handleTelegramMessage, handleTelegramMessage]
    dsimp only
    rw [scanMentions_skip_oob bot txt4 pre4 post4 e4 h4]
    rfl

/-- Witness for C6: the bot handle ReelTalkBot; a private hello; a group
hello with one out-of-range mention span and no reply; a group message
tagged with a differently-cased mention at span 0-12; and a group message
carrying an out-of-range span that must be skipped. -/
theorem c6_message_classifier_witness :
    handleTelegramMessage "ReelTalkBot".toList
        ⟨1, "private", "hello".toList, [], none⟩ ≠ Intent.ignore ∧
    handleTelegramMessage "ReelTalkBot".toList
        ⟨1, "group", "hello".toList, [⟨0, 99, "mention"⟩], none⟩ = Intent.ignore ∧
    handleTelegramMessage "ReelTalkBot".toList
        ⟨1, "group", "@ReelTalkBot hi".toList, [⟨0, 12, "mention"⟩], none⟩ =
      Intent.directQuestion
        (removeMention "@ReelTalkBot hi".toList
          (substringOf "@ReelTalkBot hi".toList 0 12)) ∧
    handleTelegramMessage "ReelTalkBot".toList
        ⟨1, "group", "hi".toList, [] ++ (⟨0, 50, "mention"⟩ : MessageEntity) :: [], none⟩ =
      handleTelegramMessage "ReelTalkBot".toList
        ⟨1, "group", "hi".toList, [] ++ [], none⟩ :=
  c6_message_classifier "ReelTalkBot".toList
    ⟨1, "private", "hello".toList, [], none⟩
    (by decide) (by decide) (by decide) rfl
    ⟨1, "group", "hello".toList, [⟨0, 99, "mention"⟩], none⟩
    (by decide) (by decide) (by decide) (by decide) (by decide) rfl
    ⟨1, "group", "@ReelTalkBot hi".toList, [⟨0, 12, "mention"⟩], none⟩
    [] [] ⟨0, 12, "mention"⟩
    (by decide) (by decide) (by decide) rfl (by decide) (by decide)
    1 "group" "hi".toList none [] [] ⟨0, 50, "mention"⟩ (by decide)

/-! ## Response truncation (internal/api_requests.go and internal/utils/utils.go)

Two source functions are both named SummarizeToLength.  The summarization
variant (api_requests.go) takes the limit-sized prefix, cuts after the last
period when that period lies beyond half the limit, and otherwise appends a
three-character ellipsis to the full prefix.  The utils variant is a bare
prefix cut.  Text is a list of characters (Go indexes bytes; identical for
ASCII). -/

/-- Translation of strings.LastIndex(text, period-string): the index of the
last occurrence, or -1 when there is none. -/
def lastIndexOf (c : Char) : List Char → Int
  | [] => -1
  | x :: xs =>
    let r := lastIndexOf c xs
    if r = -1 then (if x = c then 0 else -1) else r + 1

/-- Translation of SummarizeToLength of the summarization variant, with the
two lets of the source inlined. -/
def summarizeToLength (text : List Char) (length : Nat) : List Char :=
  if text.length ≤ length then text
  else if lastIndexOf '.' (text.take length) > (length : Int) / 2 then
    (text.take length).take ((lastIndexOf '.' (text.take length)).toNat + 1)
  else text.take length ++ ['.', '.', '.']

/-- Translation of SummarizeToLength of the utils variant: a bare prefix
cut. -/
def summarizeToLengthUtils (text : List Char) (maxLength : Nat) : List Char :=
  if text.length ≤ maxLength then text else text.take maxLength

theorem lastIndexOf_eq_neg_one (c : Char) (l : List Char) (h : c ∉ l) :
    lastIndexOf c l = -1 := by
  induction l with
  | nil => rfl
  | cons x xs ih =>
    have hx : ¬ x = c := fun hx => h (hx ▸ List.mem_cons_self x xs)
    rw [lastIndexOf]
    rw [ih (fun hm => h (List.mem_cons_of_mem x hm))]
    simp [hx]

theorem lastIndexOf_replicate_self (c : Char) (n : Nat) :
    lastIndexOf c (List.replicate n c) = (n : Int) - 1 := by
  induction n with
  | zero => rfl
  | succ m ih =>
    rw [List.replicate_succ, lastIndexOf, ih]
    cases m with
    | zero => simp
    | succ k =>
      have : ((k : Int) + 1) - 1 ≠ -1 := by omega
      push_cast
      push_cast at this
      simp only [this, if_false]
      omega

/-- C7 (amended): text within the 4096-character channel limit is returned
unchanged; longer text is first cut to the 4096-character prefix, then: if
the prefix contains a period beyond position 2048 the cut is made right
after the last such period (result within the limit), and otherwise the
full 4096-character prefix is returned with a three-character ellipsis
appended, producing 4099 characters — exceeding the channel limit.  No cut
at a word boundary is ever performed.  The utils variant performs a bare
prefix cut and stays within the limit. -/
theorem c7_summarize_to_length (short textP textN : List Char)
    (hshort : short.length ≤ 4096)
    (hlongP : 4096 < textP.length)
    (hper : 2048 < lastIndexOf '.' (textP.take 4096))
    (hlongN : 4096 < textN.length)
    (hnoper : ¬ 2048 < lastIndexOf '.' (textN.take 4096)) :
    summarizeToLength short 4096 = short ∧
    summarizeToLength textP 4096 =
      (textP.take 4096).take ((lastIndexOf '.' (textP.take 4096)).toNat + 1) ∧
    (summarizeToLength textP 4096).length ≤ 4096 ∧
    summarizeToLength textN 4096 = textN.take 4096 ++ ['.', '.', '.'] ∧
    (summarizeToLength textN 4096).length = 4099 ∧
    (summarizeToLengthUtils textN 4096).length ≤ 4096 := by
  have hhalf : ((4096 : Nat) : Int) / 2 = 2048 := by decide
  have hP : summarizeToLength textP 4096 =
      (textP.take 4096).take ((lastIndexOf '.' (textP.take 4096)).toNat + 1) := by
    rw [summarizeToLength, if_neg (by omega), if_pos (by rw [hhalf]; exact hper)]
  have hN : summarizeToLength textN 4096 = textN.take 4096 ++ ['.', '.', '.'] := by
    rw [summarizeToLength, if_neg (by omega), if_neg (by rw [hhalf]; exact hnoper)]
  refine ⟨by rw [summarizeToLength, if_pos hshort], hP, ?_, hN, ?_, ?_⟩
  · rw [hP]
    simp only [List.length_take]
    omega
  · rw [hN]
    simp only [List.length_append, List.length_take]
    simp only [List.length_cons, List.length_nil]
    omega
  · rw [summarizeToLengthUtils, if_neg (by omega)]
    simp only [List.length_take]
    omega

/-- Witness for the amended C7 theorem: a two-character text is returned
unchanged; 4097 periods are cut after the last period of the prefix; 4097
letters gain an ellipsis and end up 4099 characters long. -/
theorem c7_summarize_to_length_witness :
    summarizeToLength ['h', 'i'] 4096 = ['h', 'i'] ∧
    summarizeToLength (List.replicate 4097 '.') 4096 =
      ((List.replicate 4097 '.').take 4096).take
        ((lastIndexOf '.' ((List.replicate 4097 '.').take 4096)).toNat + 1) ∧
    (summarizeToLength (List.replicate 4097 '.') 4096).length ≤ 4096 ∧
    summarizeToLength (List.replicate 4097 'a') 4096 =
      (List.replicate 4097 'a').take 4096 ++ ['.', '.', '.'] ∧
    (summarizeToLength (List.replicate 4097 'a') 4096).length = 4099 ∧
    (summarizeToLengthUtils (List.replicate 4097 'a') 4096).length ≤ 4096 :=
  c7_summarize_to_length ['h', 'i'] (List.replicate 4097 '.') (List.replicate 4097 'a')
    (by decide)
    (by rw [List.length_replicate]; omega)
    (by
      rw [List.take_replicate, lastIndexOf_replicate_self]
      decide)
    (by rw [List.length_replicate]; omega)
    (by
      rw [List.take_replicate, lastIndexOf_eq_neg_one '.' _
        (fun hm => absurd (List.eq_of_mem_replicate hm) (by decide))]
      decide)

/-- C7 counterexample to the claim as stated: 4097 letters with no period
and no space.  The claim requires the returned string to never exceed the
4096-character channel limit, but the function returns the 4096-character
prefix plus a three-character ellipsis: 4099 characters. -/
theorem c7_limit_counterexample :
    4096 < (List.replicate 4097 'a').length ∧
    ¬ ((summarizeToLength (List.replicate 4097 'a') 4096).length ≤ 4096) := by
  have hlen : (List.replicate 4097 'a').length = 4097 := List.length_replicate 4097 'a'
  have htake : (List.replicate 4097 'a').take 4096 = List.replicate 4096 'a' := by
    rw [List.take_replicate]
    norm_num
  have hni : lastIndexOf '.' (List.replicate 4096 'a') = -1 :=
    lastIndexOf_eq_neg_one '.' _
      (fun hm => absurd (List.eq_of_mem_replicate hm) (by decide))
  have hres : summarizeToLength (List.replicate 4097 'a') 4096 =
      List.replicate 4096 'a' ++ ['.', '.', '.'] := by
    rw [summarizeToLength, if_neg (by omega), htake, hni, if_neg (by decide)]
  constructor
  · omega
  · rw [hres]
    simp only [List.length_append, List.length_replicate, List.length_cons,
      List.length_nil]
    omega

/-! ## Dispatcher (internal/app/app.go)

ProcessMessage is modelled as a pure function of the app configuration, the
cached knowledge-base health flag, the sender's usage timestamps, the
current instant, and an oracle giving the outcomes the external calls would
produce (the knowledge-base query, the OpenAI query, the Telegram send).
The result records how many times each external client was invoked, the
messages handed to the Telegram sender, the health flag after the turn, the
usage timestamps after the turn, and the error value returned to the
caller.  Conversation-context bookkeeping (JSON round-tripping through the
ConversationCache) and S3 logging do not influence any claim and are not
tracked. -/

structure KnowledgeEntryResponse where
  id : Nat
  kbNumber : Nat
  bodyOfWater : String
  fishSpecies : String
  waterType : String
  questionTemplate : String
  answer : String
  category : String
  subCategory : String
  helpfulRatings : Int
  notHelpfulRatings : Int
deriving DecidableEq

/-- Help footer appended by PrepareFinalMessage to every outgoing
answer. -/
def helpFooter : String :=
  "\n\nNeed Help? Type /help to see how to use this bot effectively."

/-- Knowledge-base trailer appended by PrepareFinalMessage when an entry is
present. -/
def kbTrailer (kbEntry : KnowledgeEntryResponse) : String :=
  "\n\n**KB Number:** " ++ toString kbEntry.kbNumber ++
    "\n**Category:** " ++ kbEntry.category ++
    "\n**Taxonomy:** " ++ kbEntry.subCategory

/-- Translation of PrepareFinalMessage: the KB trailer when an entry is
present, then the help footer; no length check afterwards. -/
def prepareFinalMessage (responseText : String)
    (kbEntry : Option KnowledgeEntryResponse) : String :=
  (match kbEntry with
    | some e => responseText ++ kbTrailer e
    | none => responseText) ++ helpFooter

/-- Rendering of the knowledge-base answer built in ProcessMessage from the
first returned entry. -/
def knowledgeResponseText (e : KnowledgeEntryResponse) : String :=
  "- **" ++ e.questionTemplate ++ "**: " ++ e.answer ++ "\n"

/-- Rate-limit reply, with d.Minutes and d.Seconds modulo 60 rendered from
a duration in seconds. -/
def rateLimitMessage (timeRemaining : Nat) : String :=
  "Thanks for using ReelTalkBot. We restrict to 10 messages per 10 minutes to keep costs low and allow everyone to use the tool. Please try again in "
    ++ toString (timeRemaining / 60) ++ " minutes and "
    ++ toString (timeRemaining % 60) ++ " seconds."

/-- Configuration fields of the App structure that steer a turn. -/
structure AppConfig where
  knowledgeBaseActive : Bool
  knowledgeBaseClientPresent : Bool
  noLimitUser : Bool
deriving DecidableEq

/-- Outcomes that the external calls of one turn would produce: the
knowledge-base query result (error or entry list), the OpenAI query result
(error or response text), and whether the Telegram send succeeds. -/
structure TurnOracle where
  kbResult : Option (List KnowledgeEntryResponse)
  aiResult : Option String
  sendOk : Bool
deriving DecidableEq

/-- Observable outcome of one ProcessMessage turn.  Field order: knowledge
lookups made, OpenAI calls made, messages handed to the sender, the
knowledge-base down flag after the turn, the usage timestamps after the
turn, and the error value returned to the caller. -/
structure TurnResult where
  kbLookups : Nat
  openAICalls : Nat
  sent : List String
  isKnowledgeBaseDown : Bool
  usageAfter : List Nat
  err : Option String
deriving DecidableEq

/-- Shared OpenAI fallback tail of ProcessMessage (both the in-branch
fallback after a lookup error and the bottom fallback have this shape; the
lookup-error branch passes a raised down flag). -/
def openAIFallback (kbLookups : Nat) (kbDownAfter : Bool) (usageAfter : List Nat)
    (oracle : TurnOracle) : TurnResult :=
  match oracle.aiResult with
  | none => ⟨kbLookups, 1, [], kbDownAfter, usageAfter, some "openai query failed"⟩
  | some responseText =>
    ⟨kbLookups, 1, [prepareFinalMessage responseText none], kbDownAfter,
      usageAfter, if oracle.sendOk then none else some "send failed"⟩

/-- Usage timestamps after the AddUsage call of a turn that passed the
rate-limit gate (CanUserChat, and hence the pruning it stores, only ran for
metered senders because of the short-circuit in the gate condition). -/
def recordedUsage (cfg : AppConfig) (usage : List Nat) (now : Nat) : List Nat :=
  addUsage now
    (if cfg.noLimitUser then usage else filterRecentMessages now defaultWindow usage)

/-- Translation of ProcessMessage (app.go lines 157-324): rate-limit gate,
usage recording, knowledge-base attempt guarded by the active flag, the
client being initialised and the cached down flag, and the OpenAI
fallback. -/
def processMessage (cfg : AppConfig) (kbDown : Bool) (usage : List Nat)
    (now : Nat) (oracle : TurnOracle) : TurnResult :=
  if cfg.noLimitUser = false ∧
      canUserChat now defaultLimit defaultWindow usage = false then
    ⟨0, 0, [rateLimitMessage (timeUntilLimitReset now defaultLimit defaultWindow usage)],
      kbDown, filterRecentMessages now defaultWindow usage, some "user rate limited"⟩
  else if cfg.knowledgeBaseActive = true ∧ cfg.knowledgeBaseClientPresent = true ∧
      kbDown = false then
    match oracle.kbResult with
    | none => openAIFallback 1 true (recordedUsage cfg usage now) oracle
    | some [] => openAIFallback 1 kbDown (recordedUsage cfg usage now) oracle
    | some (entry :: _) =>
      ⟨1, 0, [prepareFinalMessage (knowledgeResponseText entry) (some entry)],
        kbDown, recordedUsage cfg usage now,
        if oracle.sendOk then none else some "send failed"⟩
  else
    openAIFallback 0 kbDown (recordedUsage cfg usage now) oracle

/-- Translation of HealthCheck (app.go lines 822-846): inactive feature or
missing client leaves the flag untouched; a failed probe raises it; a
successful probe clears it. -/
def healthCheck (cfg : AppConfig) (kbDown : Bool) (probeOk : Bool) : Bool :=
  if cfg.knowledgeBaseActive = false ∨ cfg.knowledgeBaseClientPresent = false then
    kbDown
  else if probeOk then false else true

/-- Translation of HandleCallbackQuery (app.go lines 514-542): an unknown
token sends the generic reply and returns an error; a known token runs the
canned prompt through ProcessMessage and forwards its outcome. -/
def handleCallbackQuery (promptMap : List (String × String)) (cfg : AppConfig)
    (kbDown : Bool) (usage : List Nat) (now : Nat) (oracle : TurnOracle)
    (data : String) : List String × Option String :=
  match promptMap.find? (fun kv => kv.1 == data) with
  | none =>
    (["Sorry, I didn't recognize that action."],
      some ("unknown callback_data: " ++ data))
  | some _ =>
    let r := processMessage cfg kbDown usage now oracle
    (r.sent, r.err)

/-- Translation of the call-site error handling of HandleTelegramMessage
(telegram_handler.go lines 107-112): a ProcessMessage error is logged and
the handler returns an empty response and a nil error either way. -/
def handleTelegramMessageAbsorb (turnErr : Option String) : String × Option String :=
  match turnErr with
  | some _ => ("", none)
  | none => ("", none)

theorem openAIFallback_kbLookups (k : Nat) (d : Bool) (u : List Nat)
    (o : TurnOracle) : (openAIFallback k d u o).kbLookups = k := by
  cases h : o.aiResult <;> simp [openAIFallback, h]

theorem openAIFallback_openAICalls (k : Nat) (d : Bool) (u : List Nat)
    (o : TurnOracle) : (openAIFallback k d u o).openAICalls = 1 := by
  cases h : o.aiResult <;> simp [openAIFallback, h]

theorem openAIFallback_isDown (k : Nat) (d : Bool) (u : List Nat)
    (o : TurnOracle) : (openAIFallback k d u o).isKnowledgeBaseDown = d := by
  cases h : o.aiResult <;> simp [openAIFallback, h]

/-- C1: for direct-question turns that pass the rate-limit gate: the
knowledge lookup is made exactly when the feature is active, the client is
initialised and the cached down flag is clear (so in particular only when
the feature is enabled and the cached state is not Down); when the lookup
returns at least one entry, the sent answer is built from the first entry
and the OpenAI client is not invoked; when the lookup errors, and likewise
when it returns zero entries, the turn makes exactly one OpenAI call and
exactly one (never a second) knowledge lookup. -/
theorem c1_knowledge_lookup_routing
    (cfg1 : AppConfig) (kb1 : Bool) (usage1 : List Nat) (now1 : Nat) (o1 : TurnOracle)
    (hpass1 : cfg1.noLimitUser = true ∨
      canUserChat now1 defaultLimit defaultWindow usage1 = true)
    (cfg2 : AppConfig) (usage2 : List Nat) (now2 : Nat) (o2 : TurnOracle)
    (entry : KnowledgeEntryResponse) (rest : List KnowledgeEntryResponse)
    (hpass2 : cfg2.noLimitUser = true ∨
      canUserChat now2 defaultLimit defaultWindow usage2 = true)
    (hact2 : cfg2.knowledgeBaseActive = true)
    (hcli2 : cfg2.knowledgeBaseClientPresent = true)
    (hres2 : o2.kbResult = some (entry :: rest))
    (cfg3 : AppConfig) (usage3 : List Nat) (now3 : Nat) (o3 : TurnOracle)
    (hpass3 : cfg3.noLimitUser = true ∨
      canUserChat now3 defaultLimit defaultWindow usage3 = true)
    (hact3 : cfg3.knowledgeBaseActive = true)
    (hcli3 : cfg3.knowledgeBaseClientPresent = true)
    (hres3 : o3.kbResult = none)
    (cfg4 : AppConfig) (usage4 : List Nat) (now4 : Nat) (o4 : TurnOracle)
    (hpass4 : cfg4.noLimitUser = true ∨
      canUserChat now4 defaultLimit defaultWindow usage4 = true)
    (hact4 : cfg4.knowledgeBaseActive = true)
    (hcli4 : cfg4.knowledgeBaseClientPresent = true)
    (hres4 : o4.kbResult = some []) :
    (processMessage cfg1 kb1 usage1 now1 o1).kbLookups =
      (if cfg1.knowledgeBaseActive = true ∧ cfg1.knowledgeBaseClientPresent = true ∧
          kb1 = false then 1 else 0) ∧
    (processMessage cfg2 false usage2 now2 o2).sent =
      [prepareFinalMessage (knowledgeResponseText entry) (some entry)] ∧
    (processMessage cfg2 false usage2 now2 o2).openAICalls = 0 ∧
    (processMessage cfg3 false usage3 now3 o3).openAICalls = 1 ∧
    (processMessage cfg3 false usage3 now3 o3).kbLookups = 1 ∧
    (processMessage cfg4 false usage4 now4 o4).openAICalls = 1 ∧
    (processMessage cfg4 false usage4 now4 o4).kbLookups = 1 := by
  have hnr1 : ¬ (cfg1.noLimitUser = false ∧
      canUserChat now1 defaultLimit defaultWindow usage1 = false) := by
    rcases hpass1 with h | h <;> simp [h]
  have hnr2 : ¬ (cfg2.noLimitUser = false ∧
      canUserChat now2 defaultLimit defaultWindow usage2 = false) := by
    rcases hpass2 with h | h <;> simp [h]
  have hnr3 : ¬ (cfg3.noLimitUser = false ∧
      canUserChat now3 defaultLimit defaultWindow usage3 = false) := by
    rcases hpass3 with h | h <;> simp [h]
  have hnr4 : ¬ (cfg4.noLimitUser = false ∧
      canUserChat now4 defaultLimit defaultWindow usage4 = false) := by
    rcases hpass4 with h | h <;> simp [h]
  refine ⟨?_, ?_, ?_, ?_, ?_, ?_, ?_⟩
  · rw [processMessage, if_neg hnr1]
    by_cases hcond : cfg1.knowledgeBaseActive = true ∧
        cfg1.knowledgeBaseClientPresent = true ∧ kb1 = false
    · rw [if_pos hcond, if_pos hcond]
      cases hres : o1.kbResult with
      | none => rw [openAIFallback_kbLookups]
      | some l =>
        cases l with
        | nil => rw [openAIFallback_kbLookups]
        | cons e t => rfl
    · rw [if_neg hcond, if_neg hcond, openAIFallback_kbLookups]
  · rw [processMessage, if_neg hnr2, if_pos ⟨hact2, hcli2, rfl⟩, hres2]
  · rw [processMessage, if_neg hnr2, if_pos ⟨hact2, hcli2, rfl⟩, hres2]
  · rw [processMessage, if_neg hnr3, if_pos ⟨hact3, hcli3, rfl⟩, hres3,
      openAIFallback_openAICalls]
  · rw [processMessage, if_neg hnr3, if_pos ⟨hact3, hcli3, rfl⟩, hres3,
      openAIFallback_kbLookups]
  · rw [processMessage, if_neg hnr4, if_pos ⟨hact4, hcli4, rfl⟩, hres4,
      openAIFallback_openAICalls]
  · rw [processMessage, if_neg hnr4, if_pos ⟨hact4, hcli4, rfl⟩, hres4,
      openAIFallback_kbLookups]

/-- Witness for C1: an unmetered sender; scenario 1 has the feature
inactive (no lookup), scenario 2 a one-entry lookup result, scenario 3 a
lookup error, scenario 4 an empty lookup result. -/
theorem c1_knowledge_lookup_routing_witness :
    (processMessage ⟨false, false, true⟩ false [] 0
        ⟨some [], some "ai", true⟩).kbLookups =
      (if (false : Bool) = true ∧ (false : Bool) = true ∧ (false : Bool) = false
        then 1 else 0) ∧
    (processMessage ⟨true, true, true⟩ false [] 0
        ⟨some [⟨1, 2, "w", "f", "t", "q", "a", "c", "s", 0, 0⟩], some "ai", true⟩).sent =
      [prepareFinalMessage (knowledgeResponseText ⟨1, 2, "w", "f", "t", "q", "a", "c", "s", 0, 0⟩)
        (some ⟨1, 2, "w", "f", "t", "q", "a", "c", "s", 0, 0⟩)] ∧
    (processMessage ⟨true, true, true⟩ false [] 0
        ⟨some [⟨1, 2, "w", "f", "t", "q", "a", "c", "s", 0, 0⟩], some "ai", true⟩).openAICalls = 0 ∧
    (processMessage ⟨true, true, true⟩ false [] 0
        ⟨none, some "ai", true⟩).openAICalls = 1 ∧
    (processMessage ⟨true, true, true⟩ false [] 0
        ⟨none, some "ai", true⟩).kbLookups = 1 ∧
    (processMessage ⟨true, true, true⟩ false [] 0
        ⟨some [], some "ai", true⟩).openAICalls = 1 ∧
    (processMessage ⟨true, true, true⟩ false [] 0
        ⟨some [], some "ai", true⟩).kbLookups = 1 :=
  c1_knowledge_lookup_routing
    ⟨false, false, true⟩ false [] 0 ⟨some [], some "ai", true⟩ (Or.inl rfl)
    ⟨true, true, true⟩ [] 0 ⟨some [⟨1, 2, "w", "f", "t", "q", "a", "c", "s", 0, 0⟩], some "ai", true⟩
    ⟨1, 2, "w", "f", "t", "q", "a", "c", "s", 0, 0⟩ [] (Or.inl rfl) rfl rfl rfl
    ⟨true, true, true⟩ [] 0 ⟨none, some "ai", true⟩ (Or.inl rfl) rfl rfl rfl
    ⟨true, true, true⟩ [] 0 ⟨some [], some "ai", true⟩ (Or.inl rfl) rfl rfl rfl

/-- C3 (amended): a rate-limited turn sends the user-visible wait-time
reply but ProcessMessage returns the non-nil error value
"user rate limited"; an unknown callback token sends the generic
"not recognized" reply but HandleCallbackQuery returns the non-nil error
value naming the token.  Both errors are then logged and dropped at the
call sites (HandleTelegramMessage returns an empty response with a nil
error), so they do not travel past the update handler — but the claim that
no error value leaves ProcessMessage or HandleCallbackQuery is false, see
the counterexample. -/
theorem c3_absorbed_conditions_return_errors
    (cfg : AppConfig) (kbDown : Bool) (usage : List Nat) (now : Nat)
    (oracle : TurnOracle)
    (hnl : cfg.noLimitUser = false)
    (hblocked : canUserChat now defaultLimit defaultWindow usage = false)
    (promptMap : List (String × String)) (data : String)
    (cfg2 : AppConfig) (kb2 : Bool) (usage2 : List Nat) (now2 : Nat)
    (o2 : TurnOracle)
    (hntok : promptMap.find? (fun kv => kv.1 == data) = none) :
    (processMessage cfg kbDown usage now oracle).sent =
      [rateLimitMessage (timeUntilLimitReset now defaultLimit defaultWindow usage)] ∧
    (processMessage cfg kbDown usage now oracle).err = some "user rate limited" ∧
    handleTelegramMessageAbsorb (processMessage cfg kbDown usage now oracle).err =
      ("", none) ∧
    handleCallbackQuery promptMap cfg2 kb2 usage2 now2 o2 data =
      (["Sorry, I didn't recognize that action."],
        some ("unknown callback_data: " ++ data)) := by
  have hrl : processMessage cfg kbDown usage now oracle =
      ⟨0, 0, [rateLimitMessage (timeUntilLimitReset now defaultLimit defaultWindow usage)],
        kbDown, filterRecentMessages now defaultWindow usage,
        some "user rate limited"⟩ := by
    rw [processMessage, if_pos ⟨hnl, hblocked⟩]
  refine ⟨by rw [hrl], by rw [hrl], by rw [hrl]; rfl, ?_⟩
  rw [handleCallbackQuery, hntok]

/-- Witness for the amended C3 theorem: a metered sender with ten messages
recorded at instant 0 reading at instant 0, and a callback token that was
never registered. -/
theorem c3_absorbed_conditions_return_errors_witness :
    (processMessage ⟨false, false, false⟩ false (List.replicate 10 0) 0
        ⟨none, none, true⟩).sent =
      [rateLimitMessage (timeUntilLimitReset 0 defaultLimit defaultWindow
        (List.replicate 10 0))] ∧
    (processMessage ⟨false, false, false⟩ false (List.replicate 10 0) 0
        ⟨none, none, true⟩).err = some "user rate limited" ∧
    handleTelegramMessageAbsorb (processMessage ⟨false, false, false⟩ false
        (List.replicate 10 0) 0 ⟨none, none, true⟩).err = ("", none) ∧
    handleCallbackQuery [] ⟨false, false, false⟩ false [] 0 ⟨none, none, true⟩
        "prompt_9" =
      (["Sorry, I didn't recognize that action."],
        some ("unknown callback_data: " ++ "prompt_9")) :=
  c3_absorbed_conditions_return_errors ⟨false, false, false⟩ false
    (List.replicate 10 0) 0 ⟨none, none, true⟩ rfl (by decide)
    [] "prompt_9" ⟨false, false, false⟩ false [] 0 ⟨none, none, true⟩ rfl

/-- C3 counterexample to the claim as stated: a rate-limited turn makes
ProcessMessage return the error "user rate limited", and an unknown
callback token makes HandleCallbackQuery return the error
"unknown callback_data: prompt_9" — both are non-nil error values
propagating out of the two functions, contradicting the claim. -/
theorem c3_error_propagation_counterexample :
    (processMessage ⟨false, false, false⟩ false (List.replicate 10 0) 0
        ⟨none, none, true⟩).err ≠ none ∧
    (handleCallbackQuery [] ⟨false, false, false⟩ false [] 0 ⟨none, none, true⟩
        "prompt_9").2 ≠ none := by
  decide

/-- C4 (amended): the cached knowledge-base down flag after a
ProcessMessage turn equals the flag before the turn, except that a turn
which reaches the knowledge lookup and sees it fail raises the flag — so
ProcessMessage does write the shared health flag, in addition to the
background HealthCheck task, whose write behaviour is the second
equation. -/
theorem c4_health_flag_written_by_dispatcher (cfg : AppConfig) (kbDown : Bool)
    (usage : List Nat) (now : Nat) (oracle : TurnOracle) (probeOk : Bool) :
    (processMessage cfg kbDown usage now oracle).isKnowledgeBaseDown =
      (kbDown ||
        ((cfg.noLimitUser || canUserChat now defaultLimit defaultWindow usage) &&
          (cfg.knowledgeBaseActive && cfg.knowledgeBaseClientPresent && !kbDown) &&
          oracle.kbResult.isNone)) ∧
    healthCheck cfg kbDown probeOk =
      (if cfg.knowledgeBaseActive = false ∨ cfg.knowledgeBaseClientPresent = false
        then kbDown else !probeOk) := by
  obtain ⟨a, p, nl⟩ := cfg
  obtain ⟨kbr, air, so⟩ := oracle
  constructor
  · simp only [processMessage, openAIFallback]
    generalize canUserChat now defaultLimit defaultWindow usage = c
    cases a <;> cases p <;> cases nl <;> cases kbDown <;> cases c <;>
      rcases kbr with _ | ⟨_ | ⟨e, t⟩⟩ <;> rcases air with _ | r <;> simp
  · rw [healthCheck]
    cases probeOk <;> split <;> rfl

/-- C4 counterexample to the claim as stated: the health flag is clear
before the turn, the knowledge lookup fails, and ProcessMessage itself
(app.go line 231) sets the shared flag to Down — the flag after the call
differs from its value before the call, and the writer is the request
path, not the background health-check task. -/
theorem c4_flag_mutation_counterexample :
    (processMessage ⟨true, true, true⟩ false [] 0
        ⟨none, some "fallback", true⟩).isKnowledgeBaseDown = true ∧
    (processMessage ⟨true, true, true⟩ false [] 0
        ⟨none, some "fallback", true⟩).isKnowledgeBaseDown ≠ false := by
  decide

/-- C10: PrepareFinalMessage always appends the help footer (after the KB
number, category and taxonomy trailer when an entry is present), its output
length is exactly the input length plus trailer and footer lengths — no
length check is performed after appending — and there is an answer within
the 4096-character channel limit whose final message exceeds the limit. -/
theorem c10_final_message_footer (responseText : String)
    (kbEntry : Option KnowledgeEntryResponse) :
    (prepareFinalMessage responseText kbEntry).length =
      responseText.length +
        (match kbEntry with
          | some e => (kbTrailer e).length
          | none => 0) + helpFooter.length ∧
    (∃ head : String, prepareFinalMessage responseText kbEntry = head ++ helpFooter) ∧
    (∃ raw : String, raw.length ≤ 4096 ∧
      ¬ ((prepareFinalMessage raw none).length ≤ 4096)) := by
  refine ⟨?_, ?_, ?_⟩
  · cases kbEntry with
    | none => simp [prepareFinalMessage]
    | some e => simp [prepareFinalMessage, Nat.add_assoc]
  · cases kbEntry with
    | none => exact ⟨responseText, rfl⟩
    | some e => exact ⟨responseText ++ kbTrailer e, rfl⟩
  · refine ⟨String.mk (List.replicate 4096 'a'), ?_, ?_⟩
    · show (List.replicate 4096 'a').length ≤ 4096
      rw [List.length_replicate]
    · have hfoot : 0 < helpFooter.length := by decide
      have hgen : ∀ s : String,
          (prepareFinalMessage s none).length = s.length + helpFooter.length := by
        intro s
        simp [prepareFinalMessage]
      have hlen : (String.mk (List.replicate 4096 'a')).length =
          (List.replicate 4096 'a').length := rfl
      rw [hgen, hlen, List.length_replicate]
      omega

end ReelTalk
